import Mathlib

/-!
Shallow embedding of the stack-trace and request-history utilities of
django-debug-toolbar (`debug_toolbar/utils.py`, and the request-history
store exercised by `tests/panels/test_history.py`), together with proofs
of the specification claims about them.

Python strings are modelled as Lean `String`, Python tuples as products,
`None`-able values as `Option`.  Framework-provided operations that the
code only calls (``os.path.realpath``, ``pprint.pformat``, JSON parsing)
are abstracted as function parameters.
-/

namespace DebugToolbar

/-- Python ``"".join(parts)``: concatenation of a list of strings. -/
def concatAll : List String → String
  | [] => ""
  | s :: rest => s ++ concatAll rest

/-- Character-list version of ``pattern is at the start``: `leadsWith pat s`
is true when `pat` is an initial segment of `s`. -/
def leadsWith : List Char → List Char → Bool
  | [], _ => true
  | _ :: _, [] => false
  | p :: ps, c :: cs => p == c && leadsWith ps cs

/-- Python ``s.startswith(pre)`` on the underlying character lists. -/
def str_startswith (s pre : String) : Bool :=
  leadsWith pre.data s.data

/-- `containsData pat s` is true when `pat` occurs as a contiguous segment
of `s`. -/
def containsData (pat : List Char) : List Char → Bool
  | [] => leadsWith pat []
  | c :: t => leadsWith pat (c :: t) || containsData pat t

/-- Substring test on strings, via the underlying character lists. -/
def containsSub (s pat : String) : Bool :=
  containsData pat.data s.data

/-- The whitespace characters stripped by Python ``str.strip()``. -/
def pyIsSpace (c : Char) : Bool :=
  c == ' ' || c == '\t' || c == '\n' || c == '\r' || c == '\x0b' || c == '\x0c'

/-- Python ``s.strip()``: remove leading and trailing whitespace. -/
def pyStrip (s : String) : String :=
  ⟨((s.data.dropWhile pyIsSpace).reverse.dropWhile pyIsSpace).reverse⟩

/-- Escaping of one character as in ``django.utils.html.escape``. -/
def escapeChar : Char → String
  | '&' => "&amp;"
  | '<' => "&lt;"
  | '>' => "&gt;"
  | '\x22' => "&quot;"
  | '\x27' => "&#x27;"
  | c => String.singleton c

/-- ``django.utils.html.escape`` (what ``format_html`` applies to every
argument before substituting it into the format string). -/
def escapeHtml (s : String) : String :=
  concatAll (s.data.map escapeChar)

/-- One record of ``inspect.stack()`` restricted to its first five fields
``(frame, path, line_no, func_name, text)``; the frame object is retained
only through its ``f_locals`` attribute, of abstract type `L`. -/
structure FrameRecord (L : Type) where
  f_locals : L
  path : String
  line_no : Nat
  func_name : String
  text : Option (List String)

/-- `debug_toolbar.utils.omit_path`: the module-level ``hidden_paths``
list is passed explicitly.  ``omit_path(path)`` is
``any(path.startswith(hidden_path) for hidden_path in hidden_paths)``. -/
def omit_path (hidden_paths : List String) (path : String) : Bool :=
  hidden_paths.any (fun hidden_path => str_startswith path hidden_path)

/-- `debug_toolbar.utils.tidy_stacktrace`.  The globals it reads are
passed explicitly: `enable_locals` is the ``ENABLE_STACKTRACES_LOCALS``
config flag, `realpath` abstracts ``os.path.realpath``, `hidden_paths`
is the module-level list.  The loop skips a frame when
``omit_path(os.path.realpath(path))`` holds, computes
``text = "".join(text).strip() if text else ""`` and appends the tuple
``(path, line_no, func_name, text, frame_locals)``. -/
def tidy_stacktrace (enable_locals : Bool) (realpath : String → String)
    (hidden_paths : List String) :
    List (FrameRecord L) → List (String × Nat × String × String × Option L)
  | [] => []
  | f :: stack =>
    if omit_path hidden_paths (realpath f.path) then
      tidy_stacktrace enable_locals realpath hidden_paths stack
    else
      (f.path, f.line_no, f.func_name,
        (match f.text with
          | some lines => if lines.isEmpty then "" else pyStrip (concatAll lines)
          | none => ""),
        if enable_locals then some f.f_locals else none)
        :: tidy_stacktrace enable_locals realpath hidden_paths stack

lemma all_not_eq_not_any {α : Type} (l : List α) (p : α → Bool) :
    l.all (fun x => !(p x)) = !(l.any p) := by
  induction l with
  | nil => rfl
  | cons a t ih => simp [List.all_cons, List.any_cons, Bool.not_or, ih]

lemma tidy_stacktrace_eq_filter_map {L : Type} (enable_locals : Bool)
    (realpath : String → String) (hidden_paths : List String)
    (stack : List (FrameRecord L)) :
    tidy_stacktrace enable_locals realpath hidden_paths stack =
      (stack.filter (fun f => !(omit_path hidden_paths (realpath f.path)))).map
        (fun f => (f.path, f.line_no, f.func_name,
          (match f.text with
            | some lines => if lines.isEmpty then "" else pyStrip (concatAll lines)
            | none => ""),
          if enable_locals then some f.f_locals else none)) := by
  induction stack with
  | nil => rfl
  | cons f stack ih =>
    by_cases h : omit_path hidden_paths (realpath f.path)
    · simp [tidy_stacktrace, h, List.filter_cons, ih]
    · simp [tidy_stacktrace, h, List.filter_cons, ih]

/-- C1: `tidy_stacktrace` returns exactly those stack entries whose realpath
does not start with any configured hidden path, in their original order,
each mapped to the tuple
``(path, line_no, func_name, stripped joined text or "" when text is falsy,
f_locals when ENABLE_STACKTRACES_LOCALS else None)``. -/
theorem tidy_stacktrace_filters_hidden_paths {L : Type} (enable_locals : Bool)
    (realpath : String → String) (hidden_paths : List String)
    (stack : List (FrameRecord L)) :
    tidy_stacktrace enable_locals realpath hidden_paths stack =
      (stack.filter (fun f =>
          hidden_paths.all (fun hp => !(str_startswith (realpath f.path) hp)))).map
        (fun f => (f.path, f.line_no, f.func_name,
          (match f.text with
            | some lines => if lines.isEmpty then "" else pyStrip (concatAll lines)
            | none => ""),
          if enable_locals then some f.f_locals else none)) := by
  have hfil : (fun f : FrameRecord L =>
      hidden_paths.all (fun hp => !(str_startswith (realpath f.path) hp))) =
      (fun f : FrameRecord L => !(omit_path hidden_paths (realpath f.path))) := by
    funext f
    rw [all_not_eq_not_any]
    rfl
  rw [hfil]
  exact tidy_stacktrace_eq_filter_map enable_locals realpath hidden_paths stack

/-- C3: contrary to item 3 of the function's own docstring, `tidy_stacktrace`
does not drop the last entry of the stack: on a one-frame stack whose path is
not hidden, the (last) frame appears in the result. -/
theorem tidy_stacktrace_keeps_last_entry :
    tidy_stacktrace false (fun p => p) ["/usr/lib/python3/django"]
      [(⟨(), "/srv/app/views.py", 10, "index", some ["x = 1\n"]⟩ : FrameRecord Unit)] =
      [("/srv/app/views.py", 10, "index", "x = 1", none)] := by
  decide

/-- Splits a character list at its last ``'/'`` (the POSIX ``os.path.sep``),
as Python ``abspath.rsplit(os.path.sep, 1)`` does; `none` when the list has
no separator (where the Python unpacking would raise ``ValueError``). -/
def rsplitSep : List Char → Option (List Char × List Char)
  | [] => none
  | c :: cs =>
    match rsplitSep cs with
    | some (d, f) => some (c :: d, f)
    | none => if c == '/' then some ([], cs) else none

/-- String-level ``abspath.rsplit(os.path.sep, 1)`` into
``(directory, filename)``. -/
def rsplitPath (s : String) : Option (String × String) :=
  match rsplitSep s.data with
  | some (d, f) => some (⟨d⟩, ⟨f⟩)
  | none => none

/-- Result type of ``django.utils.safestring.mark_safe``. -/
structure SafeString where
  s : String

/-- ``django.utils.safestring.mark_safe``. -/
def mark_safe (s : String) : SafeString :=
  ⟨s⟩

/-- The HTML block `render_stacktrace` produces for one trace entry: the
``format_html`` template of the source with every argument HTML-escaped,
followed by the ``djdt-locals`` ``pre`` block exactly when
``ENABLE_STACKTRACES_LOCALS`` is on, and the closing newline. -/
def stackEntryHtml {L : Type} (show_locals : Bool) (pformat : L → String)
    (directory filename : String) (lineno : Nat) (func code : String)
    (locals_ : L) : String :=
  "<span class=\"djdt-path\">" ++ escapeHtml directory ++ "/</span>"
    ++ "<span class=\"djdt-file\">" ++ escapeHtml filename ++ "</span> in"
    ++ " <span class=\"djdt-func\">" ++ escapeHtml func ++ "</span>"
    ++ "(<span class=\"djdt-lineno\">" ++ escapeHtml (toString lineno) ++ "</span>)\n"
    ++ "  <span class=\"djdt-code\">" ++ escapeHtml code ++ "</span>\n"
    ++ (if show_locals then
          "  <pre class=\"djdt-locals\">" ++ escapeHtml (pformat locals_) ++ "</pre>\n"
        else "")
    ++ "\n"

/-- One iteration of the `render_stacktrace` loop: split the abspath at the
last separator and emit the entry's HTML block; `none` models the
``ValueError`` of a separator-less abspath. -/
def entryHtml {L : Type} (show_locals : Bool) (pformat : L → String)
    (e : String × Nat × String × String × L) : Option String :=
  match rsplitPath e.1 with
  | some (directory, filename) =>
    some (stackEntryHtml show_locals pformat directory filename
      e.2.1 e.2.2.1 e.2.2.2.1 e.2.2.2.2)
  | none => none

/-- The ``html`` accumulation of the `render_stacktrace` loop. -/
def renderHtml {L : Type} (show_locals : Bool) (pformat : L → String) :
    List (String × Nat × String × String × L) → Option String
  | [] => some ""
  | e :: rest =>
    match entryHtml show_locals pformat e, renderHtml show_locals pformat rest with
    | some h, some t => some (h ++ t)
    | _, _ => none

/-- `debug_toolbar.utils.render_stacktrace`: the concatenated per-entry HTML,
wrapped in ``mark_safe``.  ``ENABLE_STACKTRACES_LOCALS`` is the explicit
`show_locals` parameter and ``pprint.pformat`` is abstracted as `pformat`. -/
def render_stacktrace {L : Type} (show_locals : Bool) (pformat : L → String)
    (trace : List (String × Nat × String × String × L)) : Option SafeString :=
  (renderHtml show_locals pformat trace).map mark_safe

/-- C4: on a trace whose abspaths all contain a path separator,
`render_stacktrace` returns the safe string concatenating, entry by entry in
order, the HTML block built from the entry's directory and filename (the
abspath split at its last separator), function, line number and code line,
all HTML-escaped, with the ``djdt-locals`` ``pre`` block present iff
``ENABLE_STACKTRACES_LOCALS`` is enabled. -/
theorem render_stacktrace_format {L : Type} (show_locals : Bool)
    (pformat : L → String) (trace : List (String × Nat × String × String × L))
    (h : ∀ e ∈ trace, (rsplitPath e.1).isSome = true) :
    render_stacktrace show_locals pformat trace =
      some (mark_safe (concatAll (trace.map (fun e =>
        stackEntryHtml show_locals pformat
          ((rsplitPath e.1).getD ("", "")).1 ((rsplitPath e.1).getD ("", "")).2
          e.2.1 e.2.2.1 e.2.2.2.1 e.2.2.2.2)))) := by
  rw [render_stacktrace]
  have key : renderHtml show_locals pformat trace =
      some (concatAll (trace.map (fun e =>
        stackEntryHtml show_locals pformat
          ((rsplitPath e.1).getD ("", "")).1 ((rsplitPath e.1).getD ("", "")).2
          e.2.1 e.2.2.1 e.2.2.2.1 e.2.2.2.2))) := by
    induction trace with
    | nil => rfl
    | cons e rest ih =>
      have he : (rsplitPath e.1).isSome = true := h e (List.mem_cons_self e rest)
      obtain ⟨⟨d, f⟩, hd⟩ := Option.isSome_iff_exists.mp he
      have hrest := ih (fun x hx => h x (List.mem_cons_of_mem e hx))
      rw [renderHtml, entryHtml, hrest, hd]
      simp [concatAll, hd]
  rw [key]
  rfl

/-- Witness for C4 at a concrete one-entry trace. -/
theorem render_stacktrace_format_witness :
    render_stacktrace true (fun _ : Unit => "locals here")
        [("/srv/app/views.py", 42, "index", "return render(request)", ())] =
      some (mark_safe (concatAll
        ([("/srv/app/views.py", 42, "index", "return render(request)", ())].map
          (fun e =>
            stackEntryHtml true (fun _ : Unit => "locals here")
              ((rsplitPath e.1).getD ("", "")).1 ((rsplitPath e.1).getD ("", "")).2
              e.2.1 e.2.2.1 e.2.2.2.1 e.2.2.2.2)))) :=
  render_stacktrace_format true (fun _ : Unit => "locals here")
    [("/srv/app/views.py", 42, "index", "return render(request)", ())]
    (by decide)

/-- The argument of `get_sorted_request_variable`: either a plain ``dict``
(value looked up with ``variable.get``) or a multi-valued ``QueryDict``-like
mapping (values looked up with ``variable.getlist``).  Iterating either one
yields its keys. -/
inductive RequestVariable (V : Type) where
  | dict (keys : List String) (get : String → V)
  | multi (keys : List String) (getlist : String → List V)

/-- Python ``sorted`` on a list of strings (ascending lexicographic order). -/
def pySorted (ks : List String) : List String :=
  ks.mergeSort (fun a b => decide (a ≤ b))

/-- `debug_toolbar.utils.get_sorted_request_variable`: pairs
``(k, variable.get(k))`` for a dict, ``(k, variable.getlist(k))`` otherwise,
for ``k in sorted(variable)``. -/
def get_sorted_request_variable {V : Type} :
    RequestVariable V → List (String × (V ⊕ List V))
  | .dict keys get => (pySorted keys).map (fun k => (k, Sum.inl (get k)))
  | .multi keys getlist => (pySorted keys).map (fun k => (k, Sum.inr (getlist k)))

/-- The keys of a `RequestVariable`. -/
def requestVariableKeys {V : Type} : RequestVariable V → List String
  | .dict keys _ => keys
  | .multi keys _ => keys

/-- The value a `RequestVariable` associates to a key: ``variable.get(k)``
for a dict, ``variable.getlist(k)`` for a multi-valued mapping. -/
def requestVariableValue {V : Type} : RequestVariable V → String → (V ⊕ List V)
  | .dict _ get, k => Sum.inl (get k)
  | .multi _ getlist, k => Sum.inr (getlist k)

lemma pySorted_perm (ks : List String) : (pySorted ks).Perm ks :=
  List.mergeSort_perm ks _

lemma pySorted_pairwise (ks : List String) :
    List.Pairwise (fun a b : String => a ≤ b) (pySorted ks) := by
  have htrans : ∀ a b c : String, decide (a ≤ b) = true → decide (b ≤ c) = true →
      decide (a ≤ c) = true := fun a b c hab hbc => by
    simp only [decide_eq_true_eq] at *
    exact le_trans hab hbc
  have htotal : ∀ a b : String, (decide (a ≤ b) || decide (b ≤ a)) = true :=
    fun a b => by
      simp only [Bool.or_eq_true, decide_eq_true_eq]
      exact le_total a b
  have h := @List.sorted_mergeSort String (fun a b : String => decide (a ≤ b))
    htrans htotal ks
  exact h.imp (fun hab => of_decide_eq_true hab)

/-- C9: `get_sorted_request_variable` returns pairs whose keys are exactly
the input's keys in ascending sorted order, and whose values are
``variable.get(k)`` for a dict input and ``variable.getlist(k)`` for a
multi-valued input. -/
theorem get_sorted_request_variable_sorted {V : Type} (v : RequestVariable V) :
    ((get_sorted_request_variable v).map Prod.fst).Perm (requestVariableKeys v) ∧
    List.Pairwise (fun a b : String => a ≤ b)
      ((get_sorted_request_variable v).map Prod.fst) ∧
    ∀ kv ∈ get_sorted_request_variable v, kv.2 = requestVariableValue v kv.1 := by
  have hmap : ((get_sorted_request_variable v).map Prod.fst) =
      pySorted (requestVariableKeys v) := by
    cases v <;> simp [get_sorted_request_variable, requestVariableKeys, List.map_map,
      Function.comp_def]
  refine ⟨?_, ?_, ?_⟩
  · rw [hmap]
    exact pySorted_perm _
  · rw [hmap]
    exact pySorted_pairwise _
  · intro kv hkv
    cases v with
    | dict keys get =>
      simp only [get_sorted_request_variable, List.mem_map] at hkv
      obtain ⟨k, _, rfl⟩ := hkv
      rfl
    | multi keys getlist =>
      simp only [get_sorted_request_variable, List.mem_map] at hkv
      obtain ⟨k, _, rfl⟩ := hkv
      rfl

/-- A concrete two-key dict used to witness C9. -/
def sampleDict : RequestVariable Nat :=
  RequestVariable.dict ["b", "a"] (fun _ => 0)

/-- Witness for C9 at a concrete two-key dict. -/
theorem get_sorted_request_variable_sorted_witness :
    ((get_sorted_request_variable sampleDict).map Prod.fst).Perm
      (requestVariableKeys sampleDict) ∧
    List.Pairwise (fun a b : String => a ≤ b)
      ((get_sorted_request_variable sampleDict).map Prod.fst) ∧
    ∀ kv ∈ get_sorted_request_variable sampleDict,
      kv.2 = requestVariableValue sampleDict kv.1 :=
  get_sorted_request_variable_sorted sampleDict

/-- One line of the template context computed by `get_template_context`. -/
structure ContextLineEntry where
  num : Nat
  content : String
  highlight : Bool

/-- The loop of `get_template_context`: keep the numbered source lines whose
number lies between `start` and `stop`, marking the highlighted line. -/
def collectContext (start stop line : Nat) :
    List (Nat × String) → List ContextLineEntry
  | [] => []
  | (line_num, content) :: rest =>
    if start ≤ line_num ∧ line_num ≤ stop then
      { num := line_num, content := content, highlight := decide (line_num = line) }
        :: collectContext start stop line rest
    else
      collectContext start stop line rest

/-- `debug_toolbar.utils.get_template_context`, with the triple returned by
``get_template_source_from_exception_info`` (which only calls into Django)
passed in as `line`, `source_lines` and `name`:
``start = max(1, line - context_lines)``, ``end = line + 1 + context_lines``,
and the kept lines are those with ``start <= line_num <= end``. -/
def get_template_context (line : Nat) (source_lines : List (Nat × String))
    (name : String) (context_lines : Nat) : String × List ContextLineEntry :=
  (name, collectContext (max 1 (line - context_lines)) (line + 1 + context_lines)
    line source_lines)

lemma collectContext_eq_filter_map (start stop line : Nat)
    (source_lines : List (Nat × String)) :
    collectContext start stop line source_lines =
      (source_lines.filter (fun p => decide (start ≤ p.1) && decide (p.1 ≤ stop))).map
        (fun p => (⟨p.1, p.2, decide (p.1 = line)⟩ : ContextLineEntry)) := by
  induction source_lines with
  | nil => rfl
  | cons p rest ih =>
    obtain ⟨line_num, content⟩ := p
    by_cases h1 : start ≤ line_num
    · by_cases h2 : line_num ≤ stop
      · simp [collectContext, h1, h2, List.filter_cons, ih]
      · simp [collectContext, h1, h2, List.filter_cons, ih]
    · simp [collectContext, h1, List.filter_cons, ih]

/-- C10: with the default ``context_lines = 3``, `get_template_context`
keeps exactly the source lines whose number `n` satisfies
``max(1, line - 3) <= n <= line + 4``, in source order, highlighted iff
`n` equals the reported line. -/
theorem get_template_context_window (line : Nat)
    (source_lines : List (Nat × String)) (name : String) :
    get_template_context line source_lines name 3 =
      (name,
        (source_lines.filter (fun p =>
            decide (max 1 (line - 3) ≤ p.1) && decide (p.1 ≤ line + 4))).map
          (fun p => (⟨p.1, p.2, decide (p.1 = line)⟩ : ContextLineEntry))) := by
  have hstop : line + 1 + 3 = line + 4 := by omega
  rw [get_template_context, hstop, collectContext_eq_filter_map]

lemma leadsWith_self_append (p t : List Char) : leadsWith p (p ++ t) = true := by
  induction p with
  | nil => rfl
  | cons c cs ih => simp [leadsWith, ih]

lemma leadsWith_append {p s : List Char} (t : List Char)
    (h : leadsWith p s = true) : leadsWith p (s ++ t) = true := by
  induction p generalizing s with
  | nil => rfl
  | cons a ps ih =>
    cases s with
    | nil => simp [leadsWith] at h
    | cons b bs =>
      simp only [leadsWith, Bool.and_eq_true] at h
      simp [leadsWith, h.1, ih h.2]

lemma containsData_of_leads {pat s : List Char} (h : leadsWith pat s = true) :
    containsData pat s = true := by
  cases s with
  | nil => simpa [containsData] using h
  | cons c t => simp [containsData, h]

lemma containsData_append_left (s : List Char) {t pat : List Char}
    (h : containsData pat t = true) : containsData pat (s ++ t) = true := by
  induction s with
  | nil => simpa using h
  | cons c cs ih => simp [containsData, ih]

lemma containsData_append_right {s : List Char} (t : List Char) {pat : List Char}
    (h : containsData pat s = true) : containsData pat (s ++ t) = true := by
  induction s with
  | nil =>
    cases pat with
    | nil => exact containsData_of_leads rfl
    | cons a ps => simp [containsData, leadsWith] at h
  | cons c cs ih =>
    simp only [containsData, Bool.or_eq_true] at h
    rcases h with h | h
    · exact containsData_of_leads (leadsWith_append t h)
    · simp [containsData, ih h]

lemma containsSub_appL (s : String) {t pat : String}
    (h : containsSub t pat = true) : containsSub (s ++ t) pat = true := by
  unfold containsSub at *
  rw [String.data_append]
  exact containsData_append_left s.data h

lemma containsSub_appR {s : String} (t : String) {pat : String}
    (h : containsSub s pat = true) : containsSub (s ++ t) pat = true := by
  unfold containsSub at *
  rw [String.data_append]
  exact containsData_append_right t.data h

lemma containsSub_self_app (pat t : String) : containsSub (pat ++ t) pat = true := by
  unfold containsSub
  rw [String.data_append]
  exact containsData_of_leads (leadsWith_self_append pat.data t.data)

lemma containsSub_concatAll {α : Type} (f : α → String) {l : List α} {x : α}
    (hx : x ∈ l) {pat : String} (h : containsSub (f x) pat = true) :
    containsSub (concatAll (l.map f)) pat = true := by
  induction l with
  | nil => cases hx
  | cons a t ih =>
    rcases List.mem_cons.mp hx with rfl | hx'
    · exact containsSub_appR (concatAll (t.map f)) h
    · exact containsSub_appL (f a) (ih hx')

/-- Modelled from the spec: the per-request record of `DebugToolbar`
(`debug_toolbar/toolbar.py` is not under src/); per the spec the toolbar
"attaches panels ... to inbound requests" and "collects diagnostic data
during request processing".  `panels` maps each enabled panel identifier to
its collected content; `getParams` holds the request's query parameters. -/
structure Toolbar where
  panels : List (String × String)
  getParams : List (String × String)

/-- Modelled from the spec: `DebugToolbar._store`
(`debug_toolbar/toolbar.py` is not under src/), "a bounded in-memory store
of historical requests keyed by an identifier": storing a handled request
appends its record under its fresh identifier and evicts the oldest entries
until at most `cacheSize` (the ``RESULTS_CACHE_SIZE`` setting) remain. -/
def storeAdd (cacheSize : Nat) (store : List (String × Toolbar)) (id : String)
    (tb : Toolbar) : List (String × Toolbar) :=
  let s := store ++ [(id, tb)]
  s.drop (s.length - cacheSize)

/-- Lookup of an identifier in the store (Python ``dict`` access). -/
def storeLookup : List (String × Toolbar) → String → Option Toolbar
  | [], _ => none
  | (k, tb) :: rest, id => if k = id then some tb else storeLookup rest id

/-- Modelled from the spec: the ``history_sidebar`` view
(`debug_toolbar/panels/history/views.py` is not under src/); per
`tests/panels/test_history.py` it answers 400 when no ``store_id``
parameter validates, and otherwise 200 with the stored request's per-panel
content, or with an empty JSON object when the identifier is not in the
store.  A response is modelled as (status code, JSON object). -/
def history_sidebar (store : List (String × Toolbar)) (store_id : Option String) :
    Nat × List (String × String) :=
  match store_id with
  | none => (400, [])
  | some id =>
    match storeLookup store id with
    | some tb => (200, tb.panels)
    | none => (200, [])

/-- Modelled from the spec: the rendered row of one stored request in the
``history_refresh`` view's payload, containing the HTML-escaped store
identifier and the request's query parameters and values. -/
def refreshContent (id : String) (tb : Toolbar) : String :=
  "<button data-store-id=\"" ++ (escapeHtml id ++ ("\">Switch</button>"
    ++ concatAll (tb.getParams.map (fun p =>
        "<td>" ++ (p.1 ++ ("</td><td>" ++ (p.2 ++ "</td>")))))))

/-- Modelled from the spec: the ``history_refresh`` view
(`debug_toolbar/panels/history/views.py` is not under src/); it answers 200
regardless of the supplied ``store_id`` and lists one rendered row per
stored request. -/
def history_refresh (store : List (String × Toolbar)) (_store_id : Option String) :
    Nat × List String :=
  (200, store.map (fun kv => refreshContent kv.1 kv.2))

lemma storeLookup_append_self (store : List (String × Toolbar)) (id : String)
    (tb : Toolbar) (h : storeLookup store id = none) :
    storeLookup (store ++ [(id, tb)]) id = some tb := by
  induction store with
  | nil => simp [storeLookup]
  | cons kv rest ih =>
    obtain ⟨k, t⟩ := kv
    by_cases hk : k = id
    · simp [storeLookup, hk] at h
    · simp only [storeLookup, hk, if_false] at h
      simpa [storeLookup, hk] using ih h

/-- C2: the store never exceeds ``RESULTS_CACHE_SIZE`` entries, and with
``RESULTS_CACHE_SIZE = 1`` the second stored request evicts the first: the
sidebar then answers 200 with an empty JSON object for the evicted
identifier and 200 with the latest request's panel contents for the latest
identifier. -/
theorem history_store_bounded_eviction (c : Nat) (store : List (String × Toolbar))
    (i : String) (t : Toolbar) (id1 id2 : String) (tb1 tb2 : Toolbar)
    (h : id1 ≠ id2) :
    (storeAdd c store i t).length ≤ c ∧
    storeAdd 1 (storeAdd 1 [] id1 tb1) id2 tb2 = [(id2, tb2)] ∧
    history_sidebar (storeAdd 1 (storeAdd 1 [] id1 tb1) id2 tb2) (some id1) =
      (200, []) ∧
    history_sidebar (storeAdd 1 (storeAdd 1 [] id1 tb1) id2 tb2) (some id2) =
      (200, tb2.panels) := by
  have hstep : storeAdd 1 (storeAdd 1 [] id1 tb1) id2 tb2 = [(id2, tb2)] := rfl
  refine ⟨?_, hstep, ?_, ?_⟩
  · unfold storeAdd
    rw [List.length_drop]
    omega
  · rw [hstep]
    simp [history_sidebar, storeLookup, Ne.symm h]
  · rw [hstep]
    simp [history_sidebar, storeLookup]

/-- Witness for C2 with two concrete distinct identifiers. -/
theorem history_store_bounded_eviction_witness :
    (storeAdd 2 [] "c" ⟨[], []⟩).length ≤ 2 ∧
    storeAdd 1 (storeAdd 1 [] "a" ⟨[("TimerPanel", "t")], []⟩) "b"
        ⟨[("SQLPanel", "q")], []⟩ = [("b", ⟨[("SQLPanel", "q")], []⟩)] ∧
    history_sidebar (storeAdd 1 (storeAdd 1 [] "a" ⟨[("TimerPanel", "t")], []⟩)
        "b" ⟨[("SQLPanel", "q")], []⟩) (some "a") = (200, []) ∧
    history_sidebar (storeAdd 1 (storeAdd 1 [] "a" ⟨[("TimerPanel", "t")], []⟩)
        "b" ⟨[("SQLPanel", "q")], []⟩) (some "b") =
      (200, (⟨[("SQLPanel", "q")], []⟩ : Toolbar).panels) :=
  history_store_bounded_eviction 2 [] "c" ⟨[], []⟩ "a" "b"
    ⟨[("TimerPanel", "t")], []⟩ ⟨[("SQLPanel", "q")], []⟩ (by decide)

/-- C6: storing a handled request under a fresh identifier grows the store
by exactly one entry, and the sidebar view then answers 200 for that
identifier with a JSON object whose keys are exactly the enabled panel
identifiers of that request's toolbar. -/
theorem history_store_adds_one (c : Nat) (store : List (String × Toolbar))
    (id : String) (tb : Toolbar) (hc : store.length < c)
    (hfresh : storeLookup store id = none) :
    (storeAdd c store id tb).length = store.length + 1 ∧
    history_sidebar (storeAdd c store id tb) (some id) = (200, tb.panels) ∧
    ((history_sidebar (storeAdd c store id tb) (some id)).2).map Prod.fst =
      tb.panels.map Prod.fst := by
  have hs : storeAdd c store id tb = store ++ [(id, tb)] := by
    have hz : (store ++ [(id, tb)]).length - c = 0 := by
      rw [List.length_append]
      simp only [List.length_cons, List.length_nil]
      omega
    show List.drop ((store ++ [(id, tb)]).length - c) (store ++ [(id, tb)]) =
      store ++ [(id, tb)]
    rw [hz, List.drop_zero]
  have hlook := storeLookup_append_self store id tb hfresh
  rw [hs]
  refine ⟨by simp, ?_, ?_⟩
  · simp [history_sidebar, hlook]
  · simp [history_sidebar, hlook]

/-- Witness for C6 at an empty store. -/
theorem history_store_adds_one_witness :
    (storeAdd 5 [] "a" ⟨[("TimerPanel", "t"), ("SQLPanel", "q")], []⟩).length =
      List.length ([] : List (String × Toolbar)) + 1 ∧
    history_sidebar (storeAdd 5 [] "a" ⟨[("TimerPanel", "t"), ("SQLPanel", "q")], []⟩)
        (some "a") =
      (200, (⟨[("TimerPanel", "t"), ("SQLPanel", "q")], []⟩ : Toolbar).panels) ∧
    ((history_sidebar (storeAdd 5 [] "a"
          ⟨[("TimerPanel", "t"), ("SQLPanel", "q")], []⟩) (some "a")).2).map
        Prod.fst =
      (⟨[("TimerPanel", "t"), ("SQLPanel", "q")], []⟩ : Toolbar).panels.map
        Prod.fst :=
  history_store_adds_one 5 [] "a" ⟨[("TimerPanel", "t"), ("SQLPanel", "q")], []⟩
    (by decide) rfl

/-- C7: the sidebar view answers 400 when no ``store_id`` parameter is
supplied, answers 200 whenever one is supplied, and returns the empty JSON
object for an identifier that is not in the store. -/
theorem history_sidebar_status (store : List (String × Toolbar)) (id : String)
    (habsent : storeLookup store id = none) :
    (history_sidebar store none).1 = 400 ∧
    (∀ j : String, (history_sidebar store (some j)).1 = 200) ∧
    history_sidebar store (some id) = (200, []) := by
  refine ⟨rfl, ?_, ?_⟩
  · intro j
    cases hj : storeLookup store j <;> simp [history_sidebar, hj]
  · simp [history_sidebar, habsent]

/-- Witness for C7 at a one-entry store and an absent identifier. -/
theorem history_sidebar_status_witness :
    (history_sidebar [("x", ⟨[("TimerPanel", "t")], []⟩)] none).1 = 400 ∧
    (∀ j : String,
      (history_sidebar [("x", ⟨[("TimerPanel", "t")], []⟩)] (some j)).1 = 200) ∧
    history_sidebar [("x", ⟨[("TimerPanel", "t")], []⟩)] (some "y") = (200, []) :=
  history_sidebar_status [("x", ⟨[("TimerPanel", "t")], []⟩)] "y" rfl

/-- C8: the refresh view answers 200 for any ``store_id``, lists exactly one
rendered row per stored request, and each row's content contains the
HTML-escaped store identifier of that request as well as each of its query
parameter names and values. -/
theorem history_refresh_contents (store : List (String × Toolbar))
    (sid : Option String) :
    (history_refresh store sid).1 = 200 ∧
    (history_refresh store sid).2 = store.map (fun kv => refreshContent kv.1 kv.2) ∧
    (history_refresh store sid).2.length = store.length ∧
    ∀ kv ∈ store,
      containsSub (refreshContent kv.1 kv.2) (escapeHtml kv.1) = true ∧
      ∀ p ∈ kv.2.getParams,
        containsSub (refreshContent kv.1 kv.2) p.1 = true ∧
        containsSub (refreshContent kv.1 kv.2) p.2 = true := by
  refine ⟨rfl, rfl, by simp [history_refresh], ?_⟩
  intro kv _
  constructor
  · exact containsSub_appL _ (containsSub_self_app _ _)
  · intro p hp
    constructor
    · refine containsSub_appL _ (containsSub_appL _ (containsSub_appL _ ?_))
      refine containsSub_concatAll _ hp ?_
      exact containsSub_appL _ (containsSub_self_app _ _)
    · refine containsSub_appL _ (containsSub_appL _ (containsSub_appL _ ?_))
      refine containsSub_concatAll _ hp ?_
      exact containsSub_appL _ (containsSub_appL _ (containsSub_appL _
        (containsSub_self_app _ _)))

/-- Witness for C8 at a concrete one-request store. -/
theorem history_refresh_contents_witness :
    (history_refresh [("abc123", ⟨[("TimerPanel", "t")], [("foo", "bar")]⟩)]
        (some "nosuch")).1 = 200 ∧
    (history_refresh [("abc123", ⟨[("TimerPanel", "t")], [("foo", "bar")]⟩)]
        (some "nosuch")).2 =
      [("abc123", (⟨[("TimerPanel", "t")], [("foo", "bar")]⟩ : Toolbar))].map
        (fun kv => refreshContent kv.1 kv.2) ∧
    (history_refresh [("abc123", ⟨[("TimerPanel", "t")], [("foo", "bar")]⟩)]
        (some "nosuch")).2.length =
      List.length [("abc123", (⟨[("TimerPanel", "t")], [("foo", "bar")]⟩ : Toolbar))] ∧
    ∀ kv ∈ [("abc123", (⟨[("TimerPanel", "t")], [("foo", "bar")]⟩ : Toolbar))],
      containsSub (refreshContent kv.1 kv.2) (escapeHtml kv.1) = true ∧
      ∀ p ∈ kv.2.getParams,
        containsSub (refreshContent kv.1 kv.2) p.1 = true ∧
        containsSub (refreshContent kv.1 kv.2) p.2 = true :=
  history_refresh_contents
    [("abc123", ⟨[("TimerPanel", "t")], [("foo", "bar")]⟩)] (some "nosuch")

/-- Modelled from the spec: the history panel's extraction of the submitted
request data (`debug_toolbar/panels/history/panel.py` is not under src/);
per the spec the toolbar "collects diagnostic data during request
processing", and per `tests/panels/test_history.py` a form POST yields the
form data, an ``application/json`` POST with a non-empty body yields the
parsed JSON object, and an empty or unparseable body yields the empty dict.
`parse` abstracts ``json.loads`` returning `none` where Python raises
``ValueError``. -/
def historyRequestData (parse : String → Option (List (String × String)))
    (postForm : List (String × String)) (body : String) (isJson : Bool) :
    List (String × String) :=
  if postForm.isEmpty && !(body == "") && isJson then
    match parse body with
    | some obj => obj
    | none => postForm
  else postForm

/-- The ``application/json`` body ``{"foo": "bar"}`` submitted by the test. -/
def jsonFooBar : String :=
  "\x7b\"foo\": \"bar\"\x7d"

/-- C5: the history panel's stats data is the submitted form data for a form
POST (mapping "foo" to "bar"), the parsed JSON object for a JSON POST, and
the empty dict for an empty or invalid JSON body, without error. -/
theorem history_panel_post_data (parse : String → Option (List (String × String)))
    (h1 : parse jsonFooBar = some [("foo", "bar")])
    (h2 : parse "\x27" = none) :
    historyRequestData parse [("foo", "bar")] "foo=bar" false = [("foo", "bar")] ∧
    (historyRequestData parse [("foo", "bar")] "foo=bar" false).lookup "foo" =
      some "bar" ∧
    historyRequestData parse [] jsonFooBar true = [("foo", "bar")] ∧
    historyRequestData parse [] "" true = [] ∧
    historyRequestData parse [] "\x27" true = [] := by
  refine ⟨rfl, rfl, ?_, rfl, ?_⟩
  · simp only [jsonFooBar] at h1
    simp [historyRequestData, jsonFooBar, h1]
  · simp [historyRequestData, h2]

/-- Witness for C5 with a concrete parser recognising only the valid body. -/
theorem history_panel_post_data_witness :
    historyRequestData
        (fun s => if s == jsonFooBar then some [("foo", "bar")] else none)
        [("foo", "bar")] "foo=bar" false = [("foo", "bar")] ∧
    (historyRequestData
        (fun s => if s == jsonFooBar then some [("foo", "bar")] else none)
        [("foo", "bar")] "foo=bar" false).lookup "foo" = some "bar" ∧
    historyRequestData
        (fun s => if s == jsonFooBar then some [("foo", "bar")] else none)
        [] jsonFooBar true = [("foo", "bar")] ∧
    historyRequestData
        (fun s => if s == jsonFooBar then some [("foo", "bar")] else none)
        [] "" true = [] ∧
    historyRequestData
        (fun s => if s == jsonFooBar then some [("foo", "bar")] else none)
        [] "\x27" true = [] :=
  history_panel_post_data
    (fun s => if s == jsonFooBar then some [("foo", "bar")] else none)
    (by decide) (by decide)

end DebugToolbar
